import Mathlib

/-!
# Verification of the pngjs PNG decoder

A shallow embedding of the decoder in `src/reader.ts` (class `PNGReader`) and
`src/index.ts` (class `PNG`), together with proofs about its chunk parsing,
scanline defiltering, and pixel access.

Modelling conventions:
* JS byte buffers (`Uint8Array` / `Buffer`) read sequentially are `List Nat`;
  the mutable output pixel buffer of the defilterer is a total function
  `Nat → Nat` updated pointwise (a write `pixels[j] = v` becomes `upd px j v`).
* JS numbers that hold byte values are `Nat`; the explicit `& 0xff` masks in
  the source become `% 256`; `x >> 1` on a non-negative number becomes `/ 2`.
* The Paeth predictor computes `p = a + b - c`, which can be negative, so its
  intermediate arithmetic is over `Int` exactly as JS numbers behave there.
-/

deriving instance DecidableEq for Except

namespace Pngjs

/-- Pointwise update of the modelled pixel buffer: `pixels[j] = v`. -/
def upd (px : Nat → Nat) (j v : Nat) : Nat → Nat :=
  fun k => if k = j then v else px k

/-- A `for (; i < to; i++) pixels[of + i] = body(i, pixels)` loop from the
defilter routines of `reader.ts`: starting at loop index `i`, perform `n`
iterations, each writing `body i px` at absolute position `base + i`.
`body` receives the loop index and the current pixel buffer. -/
def runLoop (body : Nat → (Nat → Nat) → Nat) (base : Nat) :
    Nat → Nat → (Nat → Nat) → (Nat → Nat)
  | _, 0, px => px
  | i, n + 1, px => runLoop body base (i + 1) n (upd px (base + i) (body i px))

/-- `unFilterNone` from `reader.ts`: direct copy of the scanline. -/
def unFilterNone (scanline : Nat → Nat) (px : Nat → Nat)
    (_bpp of length : Nat) : Nat → Nat :=
  runLoop (fun i _ => scanline i) of 0 length px

/-- `unFilterSub` from `reader.ts`:
first `bpp` bytes copied, then `pixels[of+i] = (scanline[i] + pixels[of+i-bpp]) & 0xff`. -/
def unFilterSub (scanline : Nat → Nat) (px : Nat → Nat)
    (bpp of length : Nat) : Nat → Nat :=
  runLoop (fun i q => (scanline i + q (of + i - bpp)) % 256) of bpp (length - bpp)
    (runLoop (fun i _ => scanline i) of 0 bpp px)

/-- `unFilterUp` from `reader.ts`: on the first scanline (`of - length < 0`,
i.e. `of < length` since both are non-negative) the row is copied verbatim;
otherwise `pixels[of+i] = (scanline[i] + pixels[of+i-length]) & 0xff`. -/
def unFilterUp (scanline : Nat → Nat) (px : Nat → Nat)
    (_bpp of length : Nat) : Nat → Nat :=
  if of < length then
    runLoop (fun i _ => scanline i) of 0 length px
  else
    runLoop (fun i q => (scanline i + q (of + i - length)) % 256) of 0 length px

/-- `unFilterAverage` from `reader.ts`. The source's `x >> 1` is `x / 2`. -/
def unFilterAverage (scanline : Nat → Nat) (px : Nat → Nat)
    (bpp of length : Nat) : Nat → Nat :=
  if of < length then
    runLoop (fun i q => (scanline i + q (of + i - bpp) / 2) % 256) of bpp (length - bpp)
      (runLoop (fun i _ => scanline i) of 0 bpp px)
  else
    runLoop
      (fun i q => (scanline i + (q (of + i - bpp) + q (of + i - length)) / 2) % 256)
      of bpp (length - bpp)
      (runLoop (fun i q => (scanline i + q (of - length + i) / 2) % 256) of 0 bpp px)

/-- The Paeth predictor exactly as inlined in `unFilterPaeth` of `reader.ts`:
`p = a + b - c`, distances `pa pb pc` via `Math.abs`, then the
`if (pa <= pb && pa <= pc) a else if (pb <= pc) b else c` chain. -/
def paethPredictor (a b c : Nat) : Nat :=
  let p : Int := (a : Int) + (b : Int) - (c : Int)
  let pa : Nat := (p - a).natAbs
  let pb : Nat := (p - b).natAbs
  let pc : Nat := (p - c).natAbs
  if pa ≤ pb ∧ pa ≤ pc then a
  else if pb ≤ pc then b
  else c

/-- `unFilterPaeth` from `reader.ts`. On the first scanline it is literally
the `unFilterSub` body; otherwise the first `bpp` bytes add the byte directly
above, and the rest add the Paeth predictor of (left, above, upper-left). -/
def unFilterPaeth (scanline : Nat → Nat) (px : Nat → Nat)
    (bpp of length : Nat) : Nat → Nat :=
  if of < length then
    runLoop (fun i q => (scanline i + q (of + i - bpp)) % 256) of bpp (length - bpp)
      (runLoop (fun i _ => scanline i) of 0 bpp px)
  else
    runLoop
      (fun i q =>
        (scanline i +
          paethPredictor (q (of + i - bpp)) (q (of + i - length))
            (q (of + i - length - bpp))) % 256)
      of bpp (length - bpp)
      (runLoop (fun i q => (scanline i + q (of + i - length)) % 256) of 0 bpp px)

/-- The `switch (readUInt8(data, i))` filter-type dispatch of `interlaceNone`
in `reader.ts`; an unknown filter type throws (`none`). -/
def unFilterDispatch (ft : Nat) (scanline : Nat → Nat) (px : Nat → Nat)
    (bpp of cpr : Nat) : Option (Nat → Nat) :=
  match ft with
  | 0 => some (unFilterNone scanline px bpp of cpr)
  | 1 => some (unFilterSub scanline px bpp of cpr)
  | 2 => some (unFilterUp scanline px bpp of cpr)
  | 3 => some (unFilterAverage scanline px bpp of cpr)
  | 4 => some (unFilterPaeth scanline px bpp of cpr)
  | _ => none

/-- The scanline loop of `interlaceNone` in `reader.ts`:
`for (let i = 0; i < data.length; i += cpr + 1)` reads the filter-type byte
`data[i]`, takes the scanline `data.slice(i+1, i+cpr+1)`, dispatches the
inverse filter at output offset `of`, and advances `of` by `cpr`.
`data` is the inflated filtered stream (as a function on indices), `dlen` its
length. -/
def interlaceLoop (data : Nat → Nat) (dlen cpr bpp : Nat) :
    Nat → Nat → (Nat → Nat) → Option (Nat → Nat)
  | i, of, px =>
    if _h : i < dlen then
      match unFilterDispatch (data i) (fun k => data (i + 1 + k)) px bpp of cpr with
      | none => none
      | some px1 => interlaceLoop data dlen cpr bpp (i + cpr + 1) (of + cpr) px1
    else
      some px
termination_by i _ _ => dlen - i
decreasing_by simp_wf; omega

/-- Modelled from the spec (§4.6, §8): the PNG *filter encoder*, which is not
part of this decoder-only repository. For filter type `ft`, row `r`, byte `i`
of a raw buffer `raw` laid out row-major with `cpr` bytes per row, the
filtered byte is `(Raw(x) - predictor) mod 256`, where the predictor uses
`left = Raw(x-bpp)`, `up = Prior(x)`, `upperLeft = Prior(x-bpp)`, all zero
outside the buffer (row 0 and/or the first `bpp` bytes of a row). -/
def filterByte (raw : Nat → Nat) (bpp cpr r i ft : Nat) : Nat :=
  let of := r * cpr
  let left : Nat := if bpp ≤ i then raw (of + i - bpp) else 0
  let up : Nat := if r = 0 then 0 else raw (of + i - cpr)
  let ul : Nat := if r = 0 ∨ i < bpp then 0 else raw (of + i - cpr - bpp)
  let pred : Nat :=
    match ft with
    | 0 => 0
    | 1 => left
    | 2 => up
    | 3 => (left + up) / 2
    | 4 => paethPredictor left up ul
    | _ => 0
  (((raw (of + i) : Int) - pred) % 256).toNat

/-! ## Generic lemmas about the write loops -/

/-- Positions outside the written window `[base + s, base + s + n)` are
untouched by `runLoop`. -/
theorem runLoop_frame (body : Nat → (Nat → Nat) → Nat) (base : Nat) :
    ∀ (n s : Nat) (px : Nat → Nat) (j : Nat),
      j < base + s ∨ base + s + n ≤ j → runLoop body base s n px j = px j := by
  intro n
  induction n with
  | zero => intro s px j _; rfl
  | succ m ih =>
    intro s px j hj
    show runLoop body base (s + 1) m (upd px (base + s) (body s px)) j = px j
    rw [ih (s + 1) _ j (by omega)]
    unfold upd
    rw [if_neg (by omega)]

/-- If the buffer already agrees with a target below the window and each loop
body produces the target value at its write position (assuming agreement below
that position), the loop makes the buffer agree with the target on the whole
window. -/
theorem runLoop_spec (body : Nat → (Nat → Nat) → Nat) (base : Nat) (tgt : Nat → Nat) :
    ∀ (n s : Nat) (px : Nat → Nat),
      (∀ j, j < base + s → px j = tgt j) →
      (∀ i q, s ≤ i → i < s + n → (∀ j, j < base + i → q j = tgt j) →
        body i q = tgt (base + i)) →
      ∀ j, j < base + s + n → runLoop body base s n px j = tgt j := by
  intro n
  induction n with
  | zero => intro s px hpre _ j hj; exact hpre j (by omega)
  | succ m ih =>
    intro s px hpre hb j hj
    show runLoop body base (s + 1) m (upd px (base + s) (body s px)) j = tgt j
    have hval : body s px = tgt (base + s) := hb s px (le_refl s) (by omega) hpre
    apply ih (s + 1)
    · intro k hk
      unfold upd
      by_cases hks : k = base + s
      · rw [if_pos hks, hval, hks]
      · rw [if_neg hks]; exact hpre k (by omega)
    · intro i q hi1 hi2 hq; exact hb i q (by omega) (by omega) hq
    · omega

/-- Each byte of the loop's output at a written position equals the body
applied to the *final* buffer, provided the body only reads positions strictly
below its write position (all five inverse filters do). -/
theorem runLoop_char (body : Nat → (Nat → Nat) → Nat) (base : Nat) :
    ∀ (n s : Nat) (px : Nat → Nat) (j : Nat), s ≤ j → j < s + n →
      (∀ i q q', s ≤ i → i < s + n → (∀ k, k < base + i → q k = q' k) →
        body i q = body i q') →
      runLoop body base s n px (base + j) = body j (runLoop body base s n px) := by
  intro n
  induction n with
  | zero => intro s px j h1 h2; omega
  | succ m ih =>
    intro s px j h1 h2 hdep
    by_cases hjs : j = s
    · subst hjs
      show runLoop body base (j + 1) m (upd px (base + j) (body j px)) (base + j) =
        body j (runLoop body base j (m + 1) px)
      rw [runLoop_frame body base m (j + 1) _ (base + j) (by omega)]
      unfold upd
      rw [if_pos rfl]
      apply hdep j px _ (le_refl j) (by omega)
      intro k hk
      show px k = runLoop body base j (m + 1) px k
      have hstep : runLoop body base j (m + 1) px k =
          runLoop body base (j + 1) m (upd px (base + j) (body j px)) k := rfl
      rw [hstep, runLoop_frame body base m (j + 1) _ k (by omega)]
      unfold upd
      rw [if_neg (by omega)]
    · show runLoop body base (s + 1) m (upd px (base + s) (body s px)) (base + j) =
        body j (runLoop body base s (m + 1) px)
      have hstep : runLoop body base s (m + 1) px =
          runLoop body base (s + 1) m (upd px (base + s) (body s px)) := rfl
      rw [hstep]
      apply ih (s + 1) _ j (by omega) (by omega)
      intro i q q' hi1 hi2 hq
      exact hdep i q q' (by omega) (by omega) hq

/-! ## Lemmas about the Paeth predictor -/

/-- `paethPredictor a 0 0 = a`, as claimed by the source comment
"paethPredictor(x, 0, 0) is always x". -/
theorem paethPredictor_a00 (a : Nat) : paethPredictor a 0 0 = a := by
  simp only [paethPredictor]
  split_ifs <;> omega

/-- `paethPredictor 0 b 0 = b`: with no left or upper-left neighbour the
predictor is the byte above. -/
theorem paethPredictor_0b0 (b : Nat) : paethPredictor 0 b 0 = b := by
  simp only [paethPredictor]
  split_ifs <;> omega

/-- The Paeth predictor always returns one of its three arguments. -/
theorem paethPredictor_cases (a b c : Nat) :
    paethPredictor a b c = a ∨ paethPredictor a b c = b ∨ paethPredictor a b c = c := by
  simp only [paethPredictor]
  split_ifs <;> simp

/-- A known filter type (0–4) always dispatches to some inverse filter. -/
theorem unFilterDispatch_total (ft : Nat) (hft : ft < 5) (sc px : Nat → Nat)
    (bpp of cpr : Nat) :
    ∃ px1, unFilterDispatch ft sc px bpp of cpr = some px1 := by
  interval_cases ft <;> exact ⟨_, rfl⟩

/-- Defiltering one encoder-filtered row reconstructs that row of the raw
buffer: if the pixel buffer agrees with `raw` below the row offset `r * cpr`
and the scanline holds the spec-filtered bytes of row `r`, then dispatching
the matching inverse filter extends the agreement through `r * cpr + cpr`. -/
theorem row_spec (raw : Nat → Nat) (bpp cpr r ft : Nat) (sc px : Nat → Nat)
    (hbpp : 1 ≤ bpp) (hbc : bpp ≤ cpr) (hraw : ∀ j, raw j < 256) (hft : ft < 5)
    (hsc : ∀ i, i < cpr → sc i = filterByte raw bpp cpr r i ft)
    (hpre : ∀ j, j < r * cpr → px j = raw j) :
    ∃ px1, unFilterDispatch ft sc px bpp (r * cpr) cpr = some px1 ∧
      ∀ j, j < r * cpr + cpr → px1 j = raw j := by
  have hofr : r = 0 ∨ (r ≠ 0 ∧ cpr ≤ r * cpr) := by
    cases r with
    | zero => exact Or.inl rfl
    | succ n =>
      refine Or.inr ⟨Nat.succ_ne_zero n, ?_⟩
      calc cpr = 1 * cpr := (Nat.one_mul cpr).symm
        _ ≤ (n + 1) * cpr := Nat.mul_le_mul_right cpr (by omega)
  interval_cases ft
  · -- filter type 0: None
    refine ⟨_, rfl, ?_⟩
    intro j hj
    unfold unFilterNone
    apply runLoop_spec _ _ raw cpr 0 px ?_ ?_ j (by omega)
    · intro k hk; exact hpre k (by omega)
    · intro i q hi1 hi2 hq
      rw [hsc i (by omega)]
      simp only [filterByte]
      have h1 := hraw (r * cpr + i)
      omega
  · -- filter type 1: Sub
    refine ⟨_, rfl, ?_⟩
    have hinner : ∀ j, j < r * cpr + 0 + bpp →
        runLoop (fun i _ => sc i) (r * cpr) 0 bpp px j = raw j := by
      apply runLoop_spec
      · intro k hk; exact hpre k (by omega)
      · intro i q hi1 hi2 hq
        rw [hsc i (by omega)]
        simp only [filterByte]
        rw [if_neg (show ¬ bpp ≤ i by omega)]
        have h1 := hraw (r * cpr + i)
        omega
    intro j hj
    unfold unFilterSub
    apply runLoop_spec _ _ raw (cpr - bpp) bpp _ ?_ ?_ j (by omega)
    · intro k hk; exact hinner k (by omega)
    · intro i q hi1 hi2 hq
      rw [hsc i (by omega), hq (r * cpr + i - bpp) (by omega)]
      simp only [filterByte]
      rw [if_pos (show bpp ≤ i by omega)]
      have h1 := hraw (r * cpr + i)
      have h2 := hraw (r * cpr + i - bpp)
      omega
  · -- filter type 2: Up
    refine ⟨_, rfl, ?_⟩
    intro j hj
    unfold unFilterUp
    rcases hofr with hr0 | ⟨hr1, hcc⟩
    · subst hr0
      simp only [Nat.zero_mul] at hj hpre ⊢
      rw [if_pos (by omega)]
      apply runLoop_spec _ _ raw cpr 0 px ?_ ?_ j (by omega)
      · intro k hk; exact hpre k (by omega)
      · intro i q hi1 hi2 hq
        rw [hsc i (by omega)]
        simp only [filterByte, Nat.zero_mul, if_true]
        have h1 := hraw (0 + i)
        omega
    · rw [if_neg (by omega)]
      apply runLoop_spec _ _ raw cpr 0 px ?_ ?_ j (by omega)
      · intro k hk; exact hpre k (by omega)
      · intro i q hi1 hi2 hq
        rw [hsc i (by omega), hq (r * cpr + i - cpr) (by omega)]
        simp only [filterByte]
        rw [if_neg hr1]
        have h1 := hraw (r * cpr + i)
        have h2 := hraw (r * cpr + i - cpr)
        omega
  · -- filter type 3: Average
    refine ⟨_, rfl, ?_⟩
    intro j hj
    unfold unFilterAverage
    rcases hofr with hr0 | ⟨hr1, hcc⟩
    · subst hr0
      simp only [Nat.zero_mul] at hj hpre ⊢
      rw [if_pos (by omega)]
      have hinner : ∀ j, j < 0 + 0 + bpp →
          runLoop (fun i _ => sc i) 0 0 bpp px j = raw j := by
        apply runLoop_spec
        · intro k hk; exact hpre k (by omega)
        · intro i q hi1 hi2 hq
          rw [hsc i (by omega)]
          simp only [filterByte, Nat.zero_mul]
          rw [if_neg (show ¬ bpp ≤ i by omega)]
          simp only [if_true]
          have h1 := hraw (0 + i)
          omega
      apply runLoop_spec _ _ raw (cpr - bpp) bpp _ ?_ ?_ j (by omega)
      · intro k hk; exact hinner k (by omega)
      · intro i q hi1 hi2 hq
        rw [hsc i (by omega), hq (0 + i - bpp) (by omega)]
        simp only [filterByte, Nat.zero_mul]
        rw [if_pos (show bpp ≤ i by omega)]
        simp only [if_true]
        have h1 := hraw (0 + i)
        have h2 := hraw (0 + i - bpp)
        omega
    · rw [if_neg (by omega)]
      have hinner : ∀ j, j < r * cpr + 0 + bpp →
          runLoop (fun i q => (sc i + q (r * cpr - cpr + i) / 2) % 256)
            (r * cpr) 0 bpp px j = raw j := by
        apply runLoop_spec
        · intro k hk; exact hpre k (by omega)
        · intro i q hi1 hi2 hq
          rw [hsc i (by omega), hq (r * cpr - cpr + i) (by omega)]
          have hidx : r * cpr - cpr + i = r * cpr + i - cpr := by omega
          rw [hidx]
          simp only [filterByte]
          rw [if_neg (show ¬ bpp ≤ i by omega), if_neg hr1]
          have h1 := hraw (r * cpr + i)
          have h2 := hraw (r * cpr + i - cpr)
          omega
      apply runLoop_spec _ _ raw (cpr - bpp) bpp _ ?_ ?_ j (by omega)
      · intro k hk; exact hinner k (by omega)
      · intro i q hi1 hi2 hq
        rw [hsc i (by omega), hq (r * cpr + i - bpp) (by omega),
          hq (r * cpr + i - cpr) (by omega)]
        simp only [filterByte]
        rw [if_pos (show bpp ≤ i by omega), if_neg hr1]
        have h1 := hraw (r * cpr + i)
        have h2 := hraw (r * cpr + i - bpp)
        have h3 := hraw (r * cpr + i - cpr)
        omega
  · -- filter type 4: Paeth
    refine ⟨_, rfl, ?_⟩
    intro j hj
    unfold unFilterPaeth
    rcases hofr with hr0 | ⟨hr1, hcc⟩
    · subst hr0
      simp only [Nat.zero_mul] at hj hpre ⊢
      rw [if_pos (by omega)]
      have hinner : ∀ j, j < 0 + 0 + bpp →
          runLoop (fun i _ => sc i) 0 0 bpp px j = raw j := by
        apply runLoop_spec
        · intro k hk; exact hpre k (by omega)
        · intro i q hi1 hi2 hq
          rw [hsc i (by omega)]
          have hbi : ¬ bpp ≤ i := by omega
          simp [filterByte, hbi, paethPredictor_a00]
          have h1 := hraw (0 + i)
          have h2 := hraw i
          omega
      apply runLoop_spec _ _ raw (cpr - bpp) bpp _ ?_ ?_ j (by omega)
      · intro k hk; exact hinner k (by omega)
      · intro i q hi1 hi2 hq
        rw [hsc i (by omega), hq (0 + i - bpp) (by omega)]
        have hbi : bpp ≤ i := by omega
        simp [filterByte, hbi, paethPredictor_a00]
        have h1 := hraw (0 + i)
        have h2 := hraw (0 + i - bpp)
        have h3 := hraw i
        have h4 := hraw (i - bpp)
        omega
    · rw [if_neg (by omega)]
      have hinner : ∀ j, j < r * cpr + 0 + bpp →
          runLoop (fun i q => (sc i + q (r * cpr + i - cpr)) % 256)
            (r * cpr) 0 bpp px j = raw j := by
        apply runLoop_spec
        · intro k hk; exact hpre k (by omega)
        · intro i q hi1 hi2 hq
          rw [hsc i (by omega), hq (r * cpr + i - cpr) (by omega)]
          simp only [filterByte]
          rw [if_neg (show ¬ bpp ≤ i by omega), if_neg hr1,
            if_pos (show r = 0 ∨ i < bpp from Or.inr (by omega))]
          simp only [paethPredictor_0b0]
          have h1 := hraw (r * cpr + i)
          have h2 := hraw (r * cpr + i - cpr)
          omega
      apply runLoop_spec _ _ raw (cpr - bpp) bpp _ ?_ ?_ j (by omega)
      · intro k hk; exact hinner k (by omega)
      · intro i q hi1 hi2 hq
        rw [hsc i (by omega), hq (r * cpr + i - bpp) (by omega),
          hq (r * cpr + i - cpr) (by omega), hq (r * cpr + i - cpr - bpp) (by omega)]
        simp only [filterByte]
        rw [if_pos (show bpp ≤ i by omega), if_neg hr1,
          if_neg (show ¬ (r = 0 ∨ i < bpp) by omega)]
        have h1 := hraw (r * cpr + i)
        have hP : paethPredictor (raw (r * cpr + i - bpp)) (raw (r * cpr + i - cpr))
            (raw (r * cpr + i - cpr - bpp)) < 256 := by
          rcases paethPredictor_cases (raw (r * cpr + i - bpp)) (raw (r * cpr + i - cpr))
            (raw (r * cpr + i - cpr - bpp)) with h | h | h <;>
            rw [h] <;> apply hraw
        omega

/-- Row-by-row induction for the scanline loop: starting at row `r` with the
buffer correct below `r * cpr`, processing the remaining `k = h - r` encoder-
filtered rows succeeds and reconstructs the whole raw buffer. -/
theorem interlace_go (raw data : Nat → Nat) (bpp w h : Nat) (ftype : Nat → Nat)
    (hbpp : 1 ≤ bpp) (hraw : ∀ j, raw j < 256)
    (hft : ∀ r, r < h → ftype r < 5)
    (hdft : ∀ r, r < h → data (r * (bpp * w + 1)) = ftype r)
    (hdsc : ∀ r t, r < h → t < bpp * w →
      data (r * (bpp * w + 1) + 1 + t) = filterByte raw bpp (bpp * w) r t (ftype r)) :
    ∀ (k r : Nat) (px : Nat → Nat), r + k = h →
      (∀ j, j < r * (bpp * w) → px j = raw j) →
      ∃ px1,
        interlaceLoop data (h * (bpp * w + 1)) (bpp * w) bpp
          (r * (bpp * w + 1)) (r * (bpp * w)) px = some px1 ∧
        ∀ j, j < h * (bpp * w) → px1 j = raw j := by
  intro k
  induction k with
  | zero =>
    intro r px hr hpx
    have hrh : r = h := by omega
    subst hrh
    refine ⟨px, ?_, fun j hj => hpx j hj⟩
    rw [interlaceLoop]
    rw [dif_neg (lt_irrefl _)]
  | succ m ih =>
    intro r px hr hpx
    have hrh : r < h := by omega
    have hi : r * (bpp * w + 1) < h * (bpp * w + 1) :=
      mul_lt_mul_of_pos_right hrh (by omega)
    rw [interlaceLoop, dif_pos hi, hdft r hrh]
    have e1 : r * (bpp * w + 1) + bpp * w + 1 = (r + 1) * (bpp * w + 1) := by ring
    have e2 : r * (bpp * w) + bpp * w = (r + 1) * (bpp * w) := by ring
    by_cases hw : w = 0
    · subst hw
      obtain ⟨px1, hdisp⟩ :=
        unFilterDispatch_total (ftype r) (hft r hrh)
          (fun t => data (r * (bpp * 0 + 1) + 1 + t)) px bpp (r * (bpp * 0)) (bpp * 0)
      rw [hdisp]
      rw [e1, e2]
      exact ih (r + 1) px1 (by omega) (by intro j hj; omega)
    · have hbc : bpp ≤ bpp * w := Nat.le_mul_of_pos_right bpp (by omega)
      obtain ⟨px1, hdisp, hpx1⟩ :=
        row_spec raw bpp (bpp * w) r (ftype r) (fun t => data (r * (bpp * w + 1) + 1 + t))
          px hbpp hbc hraw (hft r hrh) (fun t ht => hdsc r t hrh ht) hpx
      rw [hdisp]
      rw [e1, e2]
      refine ih (r + 1) px1 (by omega) ?_
      intro j hj
      rw [← e2] at hj
      exact hpx1 j hj

/-- C1: defiltering is the exact inverse of PNG filter encoding. For every
`bpp ≥ 1`, image width `w` and row count `h` (so `cpr = bpp * w`), every
per-row choice of filter type in {0,1,2,3,4}, and every raw byte buffer, if
`data` is the filtered stream produced by the PNG filter encoding (each row:
one filter-type byte followed by the `filterByte`-encoded scanline), then the
decoder's scanline loop (`interlaceNone`'s loop dispatching
`unFilterNone/Sub/Up/Average/Paeth` at offset `rowIndex * cpr`) succeeds and
reproduces the raw buffer exactly, from any initial pixel buffer. -/
theorem unfilter_roundTrip (bpp w h : Nat) (ftype raw data px0 : Nat → Nat)
    (hbpp : 1 ≤ bpp) (hraw : ∀ j, raw j < 256)
    (hft : ∀ r, r < h → ftype r < 5)
    (hdft : ∀ r, r < h → data (r * (bpp * w + 1)) = ftype r)
    (hdsc : ∀ r t, r < h → t < bpp * w →
      data (r * (bpp * w + 1) + 1 + t) = filterByte raw bpp (bpp * w) r t (ftype r)) :
    ∃ px1,
      interlaceLoop data (h * (bpp * w + 1)) (bpp * w) bpp 0 0 px0 = some px1 ∧
      ∀ j, j < h * (bpp * w) → px1 j = raw j := by
  have hmain := interlace_go raw data bpp w h ftype hbpp hraw hft hdft hdsc h 0 px0
    (by omega) (by intro j hj; omega)
  simpa using hmain

/-! ## The `PNG` class of `src/index.ts`

Fields mirror the TS class including its initialisers. Setters that `throw`
are modelled as `Except String`: an error result means the throw happened
before any field assignment, so the caller's object is unchanged. -/

structure PNG where
  width : Nat := 0
  height : Nat := 0
  bitDepth : Nat := 0
  colorType : Nat := 0
  compressionMethod : Nat := 0
  filterMethod : Nat := 0
  interlaceMethod : Nat := 0
  colors : Nat := 0
  alpha : Bool := false
  palette : List Nat := []
  pixels : List Nat := []
  trns : List Nat := []
deriving DecidableEq, Repr

def setWidth (png : PNG) (width : Nat) : PNG := { png with width := width }

def setHeight (png : PNG) (height : Nat) : PNG := { png with height := height }

def setBitDepth (png : PNG) (bitDepth : Nat) : PNG := { png with bitDepth := bitDepth }

/-- `PNG.setColorType`: the `switch (colorType)` derives `(colors, alpha)` and
throws `invalid color type` on any other value; the three assignments happen
only after the switch, so an error leaves every field unchanged. -/
def setColorType (png : PNG) (colorType : Nat) : Except String PNG :=
  if colorType = 0 then
    .ok { png with colors := 1, alpha := false, colorType := colorType }
  else if colorType = 2 then
    .ok { png with colors := 3, alpha := false, colorType := colorType }
  else if colorType = 3 then
    .ok { png with colors := 1, alpha := false, colorType := colorType }
  else if colorType = 4 then
    .ok { png with colors := 2, alpha := true, colorType := colorType }
  else if colorType = 6 then
    .ok { png with colors := 4, alpha := true, colorType := colorType }
  else
    .error "invalid color type"

/-- `PNG.setCompressionMethod` (the numeric suffix of the JS message is elided). -/
def setCompressionMethod (png : PNG) (compressionMethod : Nat) : Except String PNG :=
  if compressionMethod ≠ 0 then .error "invalid compression method"
  else .ok { png with compressionMethod := compressionMethod }

/-- `PNG.setFilterMethod` (the numeric suffix of the JS message is elided). -/
def setFilterMethod (png : PNG) (filterMethod : Nat) : Except String PNG :=
  if filterMethod ≠ 0 then .error "invalid filter method"
  else .ok { png with filterMethod := filterMethod }

/-- `PNG.setInterlaceMethod` (the numeric suffix of the JS message is elided). -/
def setInterlaceMethod (png : PNG) (interlaceMethod : Nat) : Except String PNG :=
  if interlaceMethod ≠ 0 ∧ interlaceMethod ≠ 1 then .error "invalid interlace method"
  else .ok { png with interlaceMethod := interlaceMethod }

/-- `PNG.setPalette`: length divisible by 3 and at most `2^bitDepth * 3`
(`Math.pow(2, this.bitDepth) * 3`), else throw; otherwise stored verbatim. -/
def setPalette (png : PNG) (palette : List Nat) : Except String PNG :=
  if palette.length % 3 ≠ 0 then
    .error "incorrect PLTE chunk length"
  else if palette.length > 2 ^ png.bitDepth * 3 then
    .error "palette has more colors than 2^bitdepth"
  else
    .ok { png with palette := palette }

def setTRNS (png : PNG) (trns : List Nat) : PNG := { png with trns := trns }

def setPixels (png : PNG) (pixels : List Nat) : PNG := { png with pixels := pixels }

/-- One sample read `pixels[i + k]` of `PNG.getPixel`, where the JS index
`i = ((colors * bitDepth) / 8) * (y * width + x)` uses *real* division: with
`n8 = colors * bitDepth * (y * width + x)` the index is the real `n8 / 8`,
which addresses an element only when it is an integer, i.e. when `8 ∣ n8`;
a fractional (or out-of-range) index reads `undefined`, modelled as `none`. -/
def pxSample (png : PNG) (x y k : Nat) : Option Nat :=
  let n8 := png.colors * png.bitDepth * (y * png.width + x)
  if n8 % 8 = 0 then png.pixels.get? (n8 / 8 + k) else none

/-- `this.palette[v * 3 + k]` where `v` is the stored palette index sample;
when that sample is `undefined`, `undefined * 3 + k` is `NaN` and the palette
read is `undefined`. -/
def palLookup (png : PNG) (idx : Option Nat) (k : Nat) : Option Nat :=
  match idx with
  | none => none
  | some v => png.palette.get? (v * 3 + k)

/-- The colorType-3 alpha of `PNG.getPixel`:
`this.trns != null && this.trns[pixels[i]] != null ? this.trns[pixels[i]] : 255`
(the `trns` field is always an array, hence never `null`). -/
def trnsAlpha (png : PNG) (idx : Option Nat) : Nat :=
  match idx with
  | none => 255
  | some v =>
    match png.trns.get? v with
    | some t => t
    | none => 255

/-- `PNG.getPixel(x, y)`, returning the `[red, green, blue, alpha]` tuple with
each JS number-or-undefined as an `Option Nat`.

The source's first guard `if (!this.pixels) throw new Error('pixel data is
empty')` tests JS object truthiness of the `pixels` field; that field is
initialised to `new Uint8Array()` and only ever reassigned to other
`Uint8Array`s, which are always truthy, so the guard can never fire and the
model omits it. -/
def getPixel (png : PNG) (x y : Nat) :
    Except String (Option Nat × Option Nat × Option Nat × Option Nat) :=
  if x ≥ png.width ∨ y ≥ png.height then
    .error "x,y position out of bound"
  else
    if png.colorType = 0 then
      .ok (pxSample png x y 0, pxSample png x y 0, pxSample png x y 0, some 255)
    else if png.colorType = 2 then
      .ok (pxSample png x y 0, pxSample png x y 1, pxSample png x y 2, some 255)
    else if png.colorType = 3 then
      .ok (palLookup png (pxSample png x y 0) 0, palLookup png (pxSample png x y 0) 1,
        palLookup png (pxSample png x y 0) 2, some (trnsAlpha png (pxSample png x y 0)))
    else if png.colorType = 4 then
      .ok (pxSample png x y 0, pxSample png x y 0, pxSample png x y 0, pxSample png x y 1)
    else if png.colorType = 6 then
      .ok (pxSample png x y 0, pxSample png x y 1, pxSample png x y 2, pxSample png x y 3)
    else
      .error "invalid color type"

/-- `PNGReader.interlaceNone` as a whole: `bpp = Math.max(1, colors*bitDepth/8)`
(JS real division; the `Nat` division here coincides whenever
`colors * bitDepth` is a multiple of 8 or is below 8, which covers every
combination representable in a PNG header that this decoder handles),
`cpr = bpp * width`, a zero-filled output buffer of `bpp * width * height`
bytes, the scanline loop, and the final `setPixels`. Out-of-range scanline
reads (`undefined` in JS, stored as 0 by the `Buffer`) are `getD _ 0`. -/
def interlaceNone (png : PNG) (data : List Nat) : Except String PNG :=
  let bpp := max 1 (png.colors * png.bitDepth / 8)
  let cpr := bpp * png.width
  match interlaceLoop (fun k => data.getD k 0) data.length cpr bpp 0 0 (fun _ => 0) with
  | none => .error "unknown filtered scanline"
  | some px =>
    .ok (setPixels png ((List.range (bpp * png.width * png.height)).map px))

/-- `PNGReader.interlaceAdam7`: unconditionally throws. -/
def interlaceAdam7 (_png : PNG) (_data : List Nat) : Except String PNG :=
  .error "Adam7 interlacing is not implemented yet"

/-- `PNGReader.decodePixels`: concatenate the accumulated IDAT chunks in file
order, hand them to the external `inflate` collaborator, then dispatch on the
interlace method. An error result means the PNG object was never given a
pixel buffer. -/
def decodePixels (inflate : List Nat → Except String (List Nat))
    (dataChunks : List (List Nat)) (png : PNG) : Except String PNG :=
  match inflate (dataChunks.foldr (· ++ ·) []) with
  | .error e => .error e
  | .ok inflated =>
    if png.interlaceMethod = 0 then interlaceNone png inflated
    else interlaceAdam7 png inflated

/-! ## The `PNGReader` class of `src/reader.ts` -/

structure PNGReader where
  bytes : List Nat
  i : Nat := 0
  png : PNG := {}
  dataChunks : List (List Nat) := []
deriving DecidableEq, Repr

/-- `readBytes(length)`: bounds-checked slice `bytes.slice(i, i + length)`
advancing the cursor. -/
def readBytes (s : PNGReader) (n : Nat) : Except String (List Nat × PNGReader) :=
  if s.i + n > s.bytes.length then .error "Unexpectedly reached end of file"
  else .ok ((s.bytes.drop s.i).take n, { s with i := s.i + n })

/-- `readUInt32`: big-endian `DataView.getUint32` over a 4-byte slice. Every
call site passes a buffer with at least `offset + 4` bytes (otherwise the
`DataView` constructor would throw, a case none of the theorems below reach). -/
def readUInt32 (buffer : List Nat) (offset : Nat) : Nat :=
  buffer.getD offset 0 * 2 ^ 24 + buffer.getD (offset + 1) 0 * 2 ^ 16 +
    buffer.getD (offset + 2) 0 * 2 ^ 8 + buffer.getD (offset + 3) 0

/-- `readUInt8`: `buffer[offset]` (in-range at every use proven here). -/
def readUInt8 (buffer : List Nat) (offset : Nat) : Nat := buffer.getD offset 0

/-- The four-byte ASCII chunk tags compared by `decodeChunk`'s `switch`
(`bufferToString` turns the tag bytes into a JS string; the model compares
the byte lists directly). -/
def tagIHDR : List Nat := [73, 72, 68, 82]

def tagPLTE : List Nat := [80, 76, 84, 69]

def tagIDAT : List Nat := [73, 68, 65, 84]

def tagTRNS : List Nat := [116, 82, 78, 83]

def tagIEND : List Nat := [73, 69, 78, 68]

/-- `decodeHeader`: pointer must be at 0; read and check the 8-byte PNG
signature. -/
def decodeHeader (s : PNGReader) : Except String PNGReader :=
  if s.i ≠ 0 then .error "file pointer should be at 0 to read the header"
  else
    match readBytes s 8 with
    | .error e => .error e
    | .ok (header, s1) =>
      if header = [0x89, 0x50, 0x4e, 0x47, 0x0d, 0x0a, 0x1a, 0x0a] then .ok s1
      else .error "invalid PNGReader file (bad signature)"

/-- `decodeIHDR`: the seven header setters in source order; the first throwing
setter aborts. -/
def decodeIHDR (chunk : List Nat) (png : PNG) : Except String PNG :=
  let png1 := setWidth png (readUInt32 chunk 0)
  let png2 := setHeight png1 (readUInt32 chunk 4)
  let png3 := setBitDepth png2 (readUInt8 chunk 8)
  match setColorType png3 (readUInt8 chunk 9) with
  | .error e => .error e
  | .ok png4 =>
    match setCompressionMethod png4 (readUInt8 chunk 10) with
    | .error e => .error e
    | .ok png5 =>
      match setFilterMethod png5 (readUInt8 chunk 11) with
      | .error e => .error e
      | .ok png6 => setInterlaceMethod png6 (readUInt8 chunk 12)

/-- `decodeChunk`: read the 4-byte big-endian length, the `length < 0` guard
(the JS message's numeric suffix is elided), the 4-byte tag, `length` payload
bytes and 4 CRC bytes (discarded), then dispatch on the tag; unknown tags are
skipped and `IEND` is a no-op. Returns the tag (the JS `type` string). -/
def decodeChunk (s : PNGReader) : Except String (List Nat × PNGReader) :=
  match readBytes s 4 with
  | .error e => .error e
  | .ok (lb, s1) =>
    let length := readUInt32 lb 0
    if (length : Int) < 0 then .error "Bad chunk length"
    else
      match readBytes s1 4 with
      | .error e => .error e
      | .ok (tb, s2) =>
        match readBytes s2 length with
        | .error e => .error e
        | .ok (chunk, s3) =>
          match readBytes s3 4 with
          | .error e => .error e
          | .ok (_, s4) =>
            if tb = tagIHDR then
              match decodeIHDR chunk s4.png with
              | .error e => .error e
              | .ok png1 => .ok (tb, { s4 with png := png1 })
            else if tb = tagPLTE then
              match setPalette s4.png chunk with
              | .error e => .error e
              | .ok png1 => .ok (tb, { s4 with png := png1 })
            else if tb = tagIDAT then
              .ok (tb, { s4 with dataChunks := s4.dataChunks ++ [chunk] })
            else if tb = tagTRNS then
              .ok (tb, { s4 with png := setTRNS s4.png chunk })
            else
              .ok (tb, s4)

/-- A successful `decodeChunk` strictly advances the cursor and leaves the
input bytes untouched (it consumes 12 header/CRC bytes plus the payload). -/
theorem decodeChunk_advances (s : PNGReader) (tb : List Nat) (s1 : PNGReader)
    (h : decodeChunk s = .ok (tb, s1)) : s1.bytes = s.bytes ∧ s.i < s1.i := by
  unfold decodeChunk readBytes at h
  by_cases h1 : s.i + 4 > s.bytes.length
  · rw [if_pos h1] at h; exact absurd h (by simp)
  rw [if_neg h1] at h
  dsimp only at h
  split at h
  · exact absurd h (by simp)
  by_cases h2 : s.i + 4 + 4 > s.bytes.length
  · rw [if_pos h2] at h; exact absurd h (by simp)
  rw [if_neg h2] at h
  dsimp only at h
  by_cases h3 : s.i + 4 + 4 + readUInt32 (List.take 4 (List.drop s.i s.bytes)) 0 >
      s.bytes.length
  · rw [if_pos h3] at h; exact absurd h (by simp)
  rw [if_neg h3] at h
  dsimp only at h
  by_cases h4 : s.i + 4 + 4 + readUInt32 (List.take 4 (List.drop s.i s.bytes)) 0 + 4 >
      s.bytes.length
  · rw [if_pos h4] at h; exact absurd h (by simp)
  rw [if_neg h4] at h
  dsimp only at h
  repeat' split at h
  all_goals
    first
      | exact Except.noConfusion h
      | (injection h with hp
         injection hp with hA hB
         subst hB
         exact ⟨rfl, by dsimp only; omega⟩)

/-- The chunk loop of `PNGReader.parse`:
`while (i < bytes.length) { type = decodeChunk(); if ((type == IHDR && !readData) || type == IEND) break }`. -/
def parseChunks (readData : Bool) (s : PNGReader) : Except String PNGReader :=
  if s.i < s.bytes.length then
    match hdc : decodeChunk s with
    | .error e => .error e
    | .ok (ty, s1) =>
      if (ty = tagIHDR ∧ readData = false) ∨ ty = tagIEND then .ok s1
      else parseChunks readData s1
  else .ok s
termination_by s.bytes.length - s.i
decreasing_by
  obtain ⟨hb, hi⟩ := decodeChunk_advances s ty s1 hdc
  rw [hb]
  omega

/-- `PNGReader.parse(readData)`: decode the signature header, run the chunk
loop, then *unconditionally* `await this.decodePixels()` and return the PNG. -/
def parse (inflate : List Nat → Except String (List Nat)) (readData : Bool)
    (s : PNGReader) : Except String PNG :=
  match decodeHeader s with
  | .error e => .error e
  | .ok s1 =>
    match parseChunks readData s1 with
    | .error e => .error e
    | .ok s2 => decodePixels inflate s2.dataChunks s2.png

/-! ## Claim theorems -/

/-- C2: `unFilterPaeth`'s predictor computes `p = a + b - c` and returns the
value among {a, b, c} whose absolute distance to `p` is smallest, breaking
ties in the order a, then b, then c: it returns `a` whenever
`|p-a| ≤ |p-b|` and `|p-a| ≤ |p-c|`, otherwise `b` whenever `|p-b| ≤ |p-c|`,
otherwise `c`; when all three distances are equal it returns `a`. -/
theorem paethPredictor_spec (a b c : Nat) :
    (paethPredictor a b c = a ∨ paethPredictor a b c = b ∨ paethPredictor a b c = c) ∧
    ((((a : Int) + b - c) - paethPredictor a b c).natAbs ≤
        (((a : Int) + b - c) - a).natAbs ∧
      (((a : Int) + b - c) - paethPredictor a b c).natAbs ≤
        (((a : Int) + b - c) - b).natAbs ∧
      (((a : Int) + b - c) - paethPredictor a b c).natAbs ≤
        (((a : Int) + b - c) - c).natAbs) ∧
    ((((a : Int) + b - c) - a).natAbs ≤ (((a : Int) + b - c) - b).natAbs ∧
        (((a : Int) + b - c) - a).natAbs ≤ (((a : Int) + b - c) - c).natAbs →
      paethPredictor a b c = a) ∧
    (¬((((a : Int) + b - c) - a).natAbs ≤ (((a : Int) + b - c) - b).natAbs ∧
        (((a : Int) + b - c) - a).natAbs ≤ (((a : Int) + b - c) - c).natAbs) →
      (((a : Int) + b - c) - b).natAbs ≤ (((a : Int) + b - c) - c).natAbs →
      paethPredictor a b c = b) ∧
    (¬((((a : Int) + b - c) - a).natAbs ≤ (((a : Int) + b - c) - b).natAbs ∧
        (((a : Int) + b - c) - a).natAbs ≤ (((a : Int) + b - c) - c).natAbs) →
      ¬(((a : Int) + b - c) - b).natAbs ≤ (((a : Int) + b - c) - c).natAbs →
      paethPredictor a b c = c) ∧
    ((((a : Int) + b - c) - a).natAbs = (((a : Int) + b - c) - b).natAbs →
      (((a : Int) + b - c) - b).natAbs = (((a : Int) + b - c) - c).natAbs →
      paethPredictor a b c = a) := by
  simp only [paethPredictor]
  split_ifs <;> omega

/-- Witness for C2: with all three distances equal (a = b = c) the predictor
returns `a`. -/
theorem paethPredictor_spec_witness : paethPredictor 9 9 9 = 9 :=
  (paethPredictor_spec 9 9 9).2.2.2.2.2 (by decide) (by decide)

/-- C3: boundary handling of the inverse filters. On row 0 (`of < length`):
`unFilterUp` copies the scanline verbatim, `unFilterPaeth` coincides with
`unFilterSub`, and `unFilterAverage` copies the first `bpp` bytes and adds
only `left >> 1` afterwards. Within the first `bpp` bytes of a non-first row
(`length ≤ of`): `unFilterAverage` adds only `up >> 1` and `unFilterPaeth`
adds only `up`, the left (and upper-left) term being treated as zero. -/
theorem unFilter_boundary (sc px : Nat → Nat) (bpp of len : Nat)
    (hbpp : 1 ≤ bpp) (hlen : bpp ≤ len) :
    (of < len → ∀ i, i < len → unFilterUp sc px bpp of len (of + i) = sc i) ∧
    (of < len → unFilterPaeth sc px bpp of len = unFilterSub sc px bpp of len) ∧
    (of < len → ∀ i, i < bpp → unFilterAverage sc px bpp of len (of + i) = sc i) ∧
    (of < len → ∀ i, bpp ≤ i → i < len →
      unFilterAverage sc px bpp of len (of + i) =
        (sc i + unFilterAverage sc px bpp of len (of + i - bpp) / 2) % 256) ∧
    (of < len → ∀ i, i < bpp → unFilterPaeth sc px bpp of len (of + i) = sc i) ∧
    (len ≤ of → ∀ i, i < bpp →
      unFilterAverage sc px bpp of len (of + i) = (sc i + px (of - len + i) / 2) % 256) ∧
    (len ≤ of → ∀ i, i < bpp →
      unFilterPaeth sc px bpp of len (of + i) = (sc i + px (of + i - len)) % 256) := by
  refine ⟨?_, ?_, ?_, ?_, ?_, ?_, ?_⟩
  · intro h i hi
    unfold unFilterUp
    rw [if_pos h]
    exact runLoop_char _ of len 0 px i (by omega) (by omega) (fun _ _ _ _ _ _ => rfl)
  · intro h
    unfold unFilterPaeth unFilterSub
    rw [if_pos h]
  · intro h i hib
    unfold unFilterAverage
    rw [if_pos h]
    rw [runLoop_frame _ of (len - bpp) bpp _ (of + i) (Or.inl (by omega))]
    exact runLoop_char _ of bpp 0 px i (by omega) (by omega) (fun _ _ _ _ _ _ => rfl)
  · intro h i hib hilen
    unfold unFilterAverage
    simp only [if_pos h]
    exact runLoop_char _ of (len - bpp) bpp _ i hib (by omega)
      (fun j q q' hj1 hj2 hk => by rw [hk (of + j - bpp) (by omega)])
  · intro h i hib
    unfold unFilterPaeth
    rw [if_pos h]
    rw [runLoop_frame _ of (len - bpp) bpp _ (of + i) (Or.inl (by omega))]
    exact runLoop_char _ of bpp 0 px i (by omega) (by omega) (fun _ _ _ _ _ _ => rfl)
  · intro h i hib
    unfold unFilterAverage
    rw [if_neg (by omega)]
    rw [runLoop_frame _ of (len - bpp) bpp _ (of + i) (Or.inl (by omega))]
    rw [runLoop_char _ of bpp 0 px i (by omega) (by omega)
      (fun j q q' hj1 hj2 hk => by rw [hk (of - len + j) (by omega)])]
    rw [runLoop_frame _ of bpp 0 px (of - len + i) (Or.inl (by omega))]
  · intro h i hib
    unfold unFilterPaeth
    rw [if_neg (by omega)]
    rw [runLoop_frame _ of (len - bpp) bpp _ (of + i) (Or.inl (by omega))]
    rw [runLoop_char _ of bpp 0 px i (by omega) (by omega)
      (fun j q q' hj1 hj2 hk => by rw [hk (of + j - len) (by omega)])]
    rw [runLoop_frame _ of bpp 0 px (of + i - len) (Or.inl (by omega))]

/-- Witness for C3: on row 0, `unFilterPaeth` coincides with `unFilterSub`. -/
theorem unFilter_boundary_witness :
    unFilterPaeth (fun i => 3 * i + 5) (fun j => j + 1) 1 0 2 =
      unFilterSub (fun i => 3 * i + 5) (fun j => j + 1) 1 0 2 :=
  (unFilter_boundary (fun i => 3 * i + 5) (fun j => j + 1) 1 0 2 (by decide)
    (by decide)).2.1 (by decide)

/-- C7: `setColorType` derives `(colors, alpha)` as `(1, false)` for 0,
`(3, false)` for 2, `(1, false)` for 3, `(2, true)` for 4, `(4, true)` for 6,
leaving all other fields unchanged, and throws `invalid color type` on every
other value (in which case, the throw occurring before the assignments, the
stored `colorType`/`colors`/`alpha` fields are untouched). -/
theorem setColorType_spec (png : PNG) (c : Nat) :
    setColorType png 0 = .ok { png with colors := 1, alpha := false, colorType := 0 } ∧
    setColorType png 2 = .ok { png with colors := 3, alpha := false, colorType := 2 } ∧
    setColorType png 3 = .ok { png with colors := 1, alpha := false, colorType := 3 } ∧
    setColorType png 4 = .ok { png with colors := 2, alpha := true, colorType := 4 } ∧
    setColorType png 6 = .ok { png with colors := 4, alpha := true, colorType := 6 } ∧
    (c ≠ 0 → c ≠ 2 → c ≠ 3 → c ≠ 4 → c ≠ 6 →
      setColorType png c = .error "invalid color type") := by
  refine ⟨rfl, rfl, rfl, rfl, rfl, ?_⟩
  intro h0 h2 h3 h4 h6
  unfold setColorType
  rw [if_neg h0, if_neg h2, if_neg h3, if_neg h4, if_neg h6]

/-- Witness for C7: byte value 5 is rejected. -/
theorem setColorType_spec_witness :
    setColorType {} 5 = Except.error "invalid color type" :=
  (setColorType_spec {} 5).2.2.2.2.2 (by decide) (by decide) (by decide) (by decide)
    (by decide)

/-- C8: `setPalette` throws `incorrect PLTE chunk length` when the payload
length is not divisible by 3, throws `palette has more colors than
2^bitdepth` when the length exceeds `2^bitDepth * 3`, and otherwise stores
the palette verbatim, leaving every other field unchanged (an error return
means the throw happened before the assignment, so the previously stored
palette stands). -/
theorem setPalette_spec (png : PNG) (p : List Nat) :
    (p.length % 3 ≠ 0 → setPalette png p = .error "incorrect PLTE chunk length") ∧
    (p.length % 3 = 0 → p.length > 2 ^ png.bitDepth * 3 →
      setPalette png p = .error "palette has more colors than 2^bitdepth") ∧
    (p.length % 3 = 0 → p.length ≤ 2 ^ png.bitDepth * 3 →
      setPalette png p = .ok { png with palette := p }) := by
  refine ⟨?_, ?_, ?_⟩
  · intro h
    unfold setPalette
    rw [if_pos h]
  · intro h1 h2
    unfold setPalette
    rw [if_neg (by omega), if_pos h2]
  · intro h1 h2
    unfold setPalette
    rw [if_neg (by omega), if_neg (by omega)]

/-- Witness for C8: a 2-byte palette is rejected for its length. -/
theorem setPalette_spec_witness :
    setPalette {} [1, 2] = Except.error "incorrect PLTE chunk length" :=
  (setPalette_spec {} [1, 2]).1 (by decide)

/-- C9: when the header's interlace method is 1 (Adam7), `decodePixels`
(after the external inflate succeeds) dispatches to `interlaceAdam7`, which
throws `Adam7 interlacing is not implemented yet` before any scanline is
defiltered; the error return means `setPixels` never ran, so no raster
buffer is populated. `interlaceNone` is reached only on interlace method 0. -/
theorem adam7_rejected (inflate : List Nat → Except String (List Nat))
    (dataChunks : List (List Nat)) (png : PNG) (inflated : List Nat)
    (him : png.interlaceMethod = 1)
    (hinf : inflate (dataChunks.foldr (· ++ ·) []) = .ok inflated) :
    decodePixels inflate dataChunks png =
      .error "Adam7 interlacing is not implemented yet" := by
  unfold decodePixels
  rw [hinf]
  dsimp only
  rw [if_neg (by omega)]
  rfl

/-- Witness for C9. -/
theorem adam7_rejected_witness :
    decodePixels (fun _ => Except.ok []) [] { interlaceMethod := 1 } =
      Except.error "Adam7 interlacing is not implemented yet" :=
  adam7_rejected (fun _ => Except.ok []) [] { interlaceMethod := 1 } [] rfl rfl

/-- The raw buffer used to instantiate the C1 round-trip on concrete data. -/
def c1raw : Nat → Nat := fun j => (j * 7 + 3) % 256

/-- The filtered stream for `c1raw` with `bpp = 1`, width 2, five rows using
filter types 0,1,2,3,4 in that order: row `r` occupies indices
`[3r, 3r+3)`, the first byte being the filter type. -/
def c1data : Nat → Nat := fun idx =>
  if idx % 3 = 0 then idx / 3
  else filterByte c1raw 1 2 (idx / 3) (idx % 3 - 1) (idx / 3)

/-- Witness for C1: a five-row image exercising every filter type. -/
theorem unfilter_roundTrip_witness :
    ∃ px1,
      interlaceLoop c1data (5 * (1 * 2 + 1)) (1 * 2) 1 0 0 (fun _ => 0) = some px1 ∧
      ∀ j, j < 5 * (1 * 2) → px1 j = c1raw j :=
  unfilter_roundTrip 1 2 5 (fun r => r) c1raw c1data (fun _ => 0) (by decide)
    (fun j => Nat.mod_lt _ (by decide)) (fun _ hr => hr) (by decide)
    (fun r t hr ht => by interval_cases r <;> interval_cases t <;> rfl)

/-- Every error of `setColorType` carries the `invalid color type` message. -/
theorem setColorType_error (png : PNG) (c : Nat) (e : String)
    (h : setColorType png c = .error e) : e = "invalid color type" := by
  unfold setColorType at h
  split_ifs at h <;>
    first
      | exact Except.noConfusion h
      | (injection h with he; exact he.symm)

/-- Every error of `setCompressionMethod` carries its one message. -/
theorem setCompressionMethod_error (png : PNG) (c : Nat) (e : String)
    (h : setCompressionMethod png c = .error e) : e = "invalid compression method" := by
  unfold setCompressionMethod at h
  split_ifs at h <;>
    first
      | exact Except.noConfusion h
      | (injection h with he; exact he.symm)

/-- Every error of `setFilterMethod` carries its one message. -/
theorem setFilterMethod_error (png : PNG) (c : Nat) (e : String)
    (h : setFilterMethod png c = .error e) : e = "invalid filter method" := by
  unfold setFilterMethod at h
  split_ifs at h <;>
    first
      | exact Except.noConfusion h
      | (injection h with he; exact he.symm)

/-- Every error of `setInterlaceMethod` carries its one message. -/
theorem setInterlaceMethod_error (png : PNG) (c : Nat) (e : String)
    (h : setInterlaceMethod png c = .error e) : e = "invalid interlace method" := by
  unfold setInterlaceMethod at h
  split_ifs at h <;>
    first
      | exact Except.noConfusion h
      | (injection h with he; exact he.symm)

/-- Every error of `setPalette` carries one of its two messages. -/
theorem setPalette_error (png : PNG) (p : List Nat) (e : String)
    (h : setPalette png p = .error e) :
    e = "incorrect PLTE chunk length" ∨ e = "palette has more colors than 2^bitdepth" := by
  unfold setPalette at h
  split_ifs at h <;>
    first
      | exact Except.noConfusion h
      | (injection h with he; subst he; simp)

/-- Every error of `decodeIHDR` comes from one of the four validating header
setters. -/
theorem decodeIHDR_error (chunk : List Nat) (png : PNG) (e : String)
    (h : decodeIHDR chunk png = .error e) :
    e = "invalid color type" ∨ e = "invalid compression method" ∨
      e = "invalid filter method" ∨ e = "invalid interlace method" := by
  unfold decodeIHDR at h
  dsimp only at h
  split at h
  next e1 heq =>
    injection h with he
    subst he
    exact Or.inl (setColorType_error _ _ _ heq)
  next png4 heq4 =>
    split at h
    next e1 heq =>
      injection h with he
      subst he
      exact Or.inr (Or.inl (setCompressionMethod_error _ _ _ heq))
    next png5 heq5 =>
      split at h
      next e1 heq =>
        injection h with he
        subst he
        exact Or.inr (Or.inr (Or.inl (setFilterMethod_error _ _ _ heq)))
      next png6 heq6 =>
        exact Or.inr (Or.inr (Or.inr (setInterlaceMethod_error _ _ _ h)))

/-- C10: the `Bad chunk length` branch of `decodeChunk` is unreachable. The
4-byte chunk length is read by `DataView.getUint32`, an unsigned big-endian
value in `[0, 2^32)`, so the `length < 0` guard never holds and `decodeChunk`
never raises the bad-chunk-length error on any input. -/
theorem decodeChunk_no_bad_length (s : PNGReader) :
    decodeChunk s ≠ Except.error "Bad chunk length" := by
  intro h
  unfold decodeChunk readBytes at h
  by_cases h1 : s.i + 4 > s.bytes.length
  · rw [if_pos h1] at h
    injection h with he
    exact absurd he (by decide)
  rw [if_neg h1] at h
  dsimp only at h
  split at h
  · omega
  by_cases h2 : s.i + 4 + 4 > s.bytes.length
  · rw [if_pos h2] at h
    injection h with he
    exact absurd he (by decide)
  rw [if_neg h2] at h
  dsimp only at h
  by_cases h3 : s.i + 4 + 4 + readUInt32 (List.take 4 (List.drop s.i s.bytes)) 0 >
      s.bytes.length
  · rw [if_pos h3] at h
    injection h with he
    exact absurd he (by decide)
  rw [if_neg h3] at h
  dsimp only at h
  by_cases h4 : s.i + 4 + 4 + readUInt32 (List.take 4 (List.drop s.i s.bytes)) 0 + 4 >
      s.bytes.length
  · rw [if_pos h4] at h
    injection h with he
    exact absurd he (by decide)
  rw [if_neg h4] at h
  dsimp only at h
  split at h
  · -- IHDR
    split at h
    next e1 heq =>
      injection h with he
      subst he
      rcases decodeIHDR_error _ _ _ heq with hx | hx | hx | hx <;>
        exact absurd hx (by decide)
    next png1 heq =>
      exact Except.noConfusion h
  · split at h
    · -- PLTE
      split at h
      next e1 heq =>
        injection h with he
        subst he
        rcases setPalette_error _ _ _ heq with hx | hx <;> exact absurd hx (by decide)
      next png1 heq =>
        exact Except.noConfusion h
    · split at h
      · exact Except.noConfusion h
      · split at h
        · exact Except.noConfusion h
        · exact Except.noConfusion h

/-- Modelled from the spec (§3): `bytesPerPixel = max(1, channelCount ×
bitDepth / 8)`, the quantity the claim says `getPixel` multiplies by. -/
def bytesPerPixelSpec (png : PNG) : Nat := max 1 (png.colors * png.bitDepth / 8)

/-- Modelled from the spec (§4.7): the tuple the claim says `getPixel`
returns, reading samples from byte offset
`bytesPerPixel × (y × width + x)` into the raster buffer. -/
def getPixelClaimTuple (png : PNG) (x y : Nat) :
    Option Nat × Option Nat × Option Nat × Option Nat :=
  let i := bytesPerPixelSpec png * (y * png.width + x)
  let s := fun k => png.pixels.get? (i + k)
  if png.colorType = 0 then (s 0, s 0, s 0, some 255)
  else if png.colorType = 2 then (s 0, s 1, s 2, some 255)
  else if png.colorType = 3 then
    (palLookup png (s 0) 0, palLookup png (s 0) 1, palLookup png (s 0) 2,
      some (trnsAlpha png (s 0)))
  else if png.colorType = 4 then (s 0, s 0, s 0, s 1)
  else if png.colorType = 6 then (s 0, s 1, s 2, s 3)
  else (none, none, none, none)

/-- An indexed-color image with bitDepth 1: two pixels, a six-byte palette,
raster `[0, 1]`. Reachable by a decode: all setter validations accept these
values. -/
def c5png : PNG :=
  { width := 2, height := 1, bitDepth := 1, colorType := 3, colors := 1,
    palette := [10, 20, 30, 40, 50, 60], pixels := [0, 1], trns := [] }

/-- Counterexample to C5 as stated: at bitDepth 1 (colorType 3) the source
computes the index `((colors * bitDepth) / 8) * (y * width + x)` *without*
the `max(1, ·)` that the claim's `bytesPerPixel` has, so for pixel (1, 0) it
reads at the fractional JS index 0.125 (yielding undefined samples) instead
of byte offset 1. -/
theorem getPixel_claim_cex :
    getPixel c5png 1 0 ≠ Except.ok (getPixelClaimTuple c5png 1 0) := by decide

/-- C5 (amended): when `channelCount × bitDepth` is a positive multiple of 8
(every combination with bitDepth 8 or 16, where the source's un-`max`ed
index coincides with the claim's `bytesPerPixel × (y × width + x)`),
`getPixel(x, y)` on in-bounds coordinates returns exactly the per-colorType
tuple of the claim: (s,s,s,255) for type 0, (s0,s1,s2,255) for type 2,
palette/trns lookups for type 3, (s0,s0,s0,s1) for type 4 and (s0,s1,s2,s3)
for type 6, reading from byte offset `bytesPerPixel × (y × width + x)`. -/
theorem getPixel_spec (png : PNG) (x y : Nat)
    (hx : x < png.width) (hy : y < png.height)
    (hdvd : 8 ∣ png.colors * png.bitDepth) (hpos : png.colors * png.bitDepth ≠ 0)
    (hct : png.colorType = 0 ∨ png.colorType = 2 ∨ png.colorType = 3 ∨
      png.colorType = 4 ∨ png.colorType = 6) :
    getPixel png x y = Except.ok (getPixelClaimTuple png x y) := by
  obtain ⟨m, hm⟩ := hdvd
  have hm1 : 1 ≤ m := by
    rcases Nat.eq_zero_or_pos m with h0 | h1
    · subst h0; omega
    · exact h1
  have hb : bytesPerPixelSpec png = m := by
    unfold bytesPerPixelSpec
    rw [hm, Nat.mul_div_cancel_left m (by norm_num)]
    omega
  have hsample : ∀ k, pxSample png x y k =
      png.pixels.get? (bytesPerPixelSpec png * (y * png.width + x) + k) := by
    intro k
    unfold pxSample
    have h8 : png.colors * png.bitDepth * (y * png.width + x) =
        8 * (m * (y * png.width + x)) := by rw [hm]; ring
    rw [h8, if_pos (Nat.mul_mod_right 8 _), Nat.mul_div_cancel_left _ (by norm_num), hb]
  have hguard : ¬(x ≥ png.width ∨ y ≥ png.height) := by omega
  rcases hct with hc | hc | hc | hc | hc <;>
    simp [getPixel, getPixelClaimTuple, hc, hguard, hsample]

/-- A 1×1 truecolor (type 2, bitDepth 8) image with one decoded pixel. -/
def c5ok : PNG :=
  { width := 1, height := 1, bitDepth := 8, colorType := 2, colors := 3,
    pixels := [7, 8, 9] }

/-- Witness for C5 (amended). -/
theorem getPixel_spec_witness :
    getPixel c5ok 0 0 = Except.ok (getPixelClaimTuple c5ok 0 0) :=
  getPixel_spec c5ok 0 0 (by decide) (by decide) (by decide) (by decide)
    (by right; left; rfl)

/-- A header-only PNG object: dimensions and color model set by IHDR, but the
raster buffer never populated (`pixels` still the initial empty array). -/
def c6png : PNG :=
  { width := 1, height := 1, bitDepth := 8, colorType := 0, colors := 1 }

/-- C10-adjacent evaluation for C6: on an object whose raster buffer was
never populated, `getPixel(0, 0)` does *not* raise the `pixel data is empty`
error (the `if (!this.pixels)` guard tests the truthiness of a `Uint8Array`
object, which is always truthy); it returns a tuple of undefined samples with
alpha 255. -/
theorem getPixel_empty_no_error :
    getPixel c6png 0 0 = Except.ok (none, none, none, some 255) := by decide

/-- A well-formed multi-chunk PNG byte sequence: signature, a 13-byte IHDR
(1×1, bitDepth 8, grayscale, methods 0), one IDAT chunk, and IEND, each with
a 4-byte CRC (read but not validated). -/
def c4bytes : List Nat :=
  [0x89, 0x50, 0x4e, 0x47, 0x0d, 0x0a, 0x1a, 0x0a] ++
    ([0, 0, 0, 13] ++ tagIHDR ++ [0, 0, 0, 1, 0, 0, 0, 1, 8, 0, 0, 0, 0] ++ [0, 0, 0, 0]) ++
    ([0, 0, 0, 1] ++ tagIDAT ++ [42] ++ [0, 0, 0, 0]) ++
    ([0, 0, 0, 0] ++ tagIEND ++ [0, 0, 0, 0])

/-- The PNG descriptor produced by the IHDR chunk of `c4bytes`. -/
def c4png : PNG :=
  { width := 1, height := 1, bitDepth := 8, colorType := 0, colors := 1 }

/-- The reader state right after that IHDR chunk (cursor at byte 33,
no IDAT payload accumulated). -/
def c4after : PNGReader :=
  { bytes := c4bytes, i := 33, png := c4png, dataChunks := [] }

/-- C4 / code bug: on the well-formed multi-chunk file `c4bytes` with
`readData = false`, the chunk loop does stop immediately after the first
IHDR — the resulting state has processed neither IDAT nor IEND and has an
empty accumulated payload — but `parse` then *unconditionally* awaits
`decodePixels()`, handing the empty payload to the external inflate
collaborator; whenever inflating the empty stream fails (as the standard
zlib collaborator does on a truncated stream), `parse(false)` propagates
that failure instead of returning the header-only descriptor. -/
theorem parse_headerOnly (inflate : List Nat → Except String (List Nat))
    (e : String) (hinf : inflate [] = .error e) :
    (parseChunks false { bytes := c4bytes, i := 8 } = Except.ok c4after ∧
      c4after.dataChunks = [] ∧ c4after.i = 33) ∧
    parse inflate false { bytes := c4bytes } = Except.error e := by
  have hdc : decodeChunk { bytes := c4bytes, i := 8 } = Except.ok (tagIHDR, c4after) := by
    decide
  have hloop : parseChunks false { bytes := c4bytes, i := 8 } = Except.ok c4after := by
    rw [parseChunks]
    rw [if_pos (by decide)]
    rw [hdc]
    dsimp only
    rw [if_pos (by decide)]
  refine ⟨⟨hloop, rfl, rfl⟩, ?_⟩
  unfold parse
  have hh : decodeHeader { bytes := c4bytes } = Except.ok { bytes := c4bytes, i := 8 } := by
    decide
  rw [hh]
  dsimp only
  rw [hloop]
  dsimp only
  unfold decodePixels
  rw [show c4after.dataChunks.foldr (· ++ ·) [] = [] from rfl, hinf]

/-- Witness for C4: with an inflate collaborator that rejects the empty
stream, header-only parsing fails. -/
theorem parse_headerOnly_witness :
    (parseChunks false { bytes := c4bytes, i := 8 } = Except.ok c4after ∧
      c4after.dataChunks = [] ∧ c4after.i = 33) ∧
    parse (fun _ => Except.error "unexpected end of file") false { bytes := c4bytes } =
      Except.error "unexpected end of file" :=
  parse_headerOnly (fun _ => Except.error "unexpected end of file")
    "unexpected end of file" rfl

/-- Witness for C10 at a concrete input (a 12-byte IEND-only chunk stream). -/
theorem decodeChunk_no_bad_length_witness :
    decodeChunk { bytes := [0, 0, 0, 0, 73, 69, 78, 68, 0, 0, 0, 0] } ≠
      Except.error "Bad chunk length" :=
  decodeChunk_no_bad_length { bytes := [0, 0, 0, 0, 73, 69, 78, 68, 0, 0, 0, 0] }

end Pngjs
